import Mathlib

/-!
Verification of the task-manager data model (`task_manager.py`).

The Python classes `SubTask`, `MainTask`, `Student` and `StudentDatabase`
are embedded as Lean structures and functions.  Python methods that can
`raise` are modelled in one of two ways:

* methods that can raise before any mutation return `Except PyError _`;
* mutating methods return `State × Option PyError`, the final state of the
  receiver paired with the exception (if one propagated), because in Python
  a field assignment performed before a later `raise` persists.

Machine-level string operations used by the source (`str.split`,
`str.lower`, slicing, the `in` substring test, `strptime`/`strftime` with
format `%d/%m/%Y`) are modelled by executable character-list functions.
-/

instance {ε α : Type} [DecidableEq ε] [DecidableEq α] : DecidableEq (Except ε α) := fun x y =>
  match x, y with
  | Except.ok a, Except.ok b =>
    if h : a = b then isTrue (by rw [h]) else isFalse (by simp [h])
  | Except.error a, Except.error b =>
    if h : a = b then isTrue (by rw [h]) else isFalse (by simp [h])
  | Except.ok _, Except.error _ => isFalse (by simp)
  | Except.error _, Except.ok _ => isFalse (by simp)

/-- The exceptions the source can raise. -/
inductive PyError where
  | valueError (msg : String)
  | indexError (msg : String)
  | typeError (msg : String)
deriving DecidableEq

/-- `datetime.datetime` restricted to what `%d/%m/%Y` produces: a calendar
date.  `datetime` objects compare lexicographically by (year, month, day). -/
structure PyDate where
  year : Nat
  month : Nat
  day : Nat
deriving DecidableEq

/-- Strict `<` on `datetime` values (year, then month, then day). -/
def PyDate.ltb (a b : PyDate) : Bool :=
  decide (a.year < b.year ∨ (a.year = b.year ∧
    (a.month < b.month ∨ (a.month = b.month ∧ a.day < b.day))))

/-- Python truthiness of an `Optional[str]`: `None` and `""` are falsy. -/
def strTruthy : Option String → Bool
  | none => false
  | some s => s != ""

/-- Python `str(x)` applied to an `Optional[str]` value: `str(None)` is the
four-character string `"None"`. -/
def pyStr : Option String → String
  | none => "None"
  | some s => s

/-- Python `s[:n]` for a non-negative `n`. -/
def pyTake (n : Nat) (s : String) : String := ⟨s.data.take n⟩

/-- Python `str.lower` (ASCII case folding, as used on keywords/details). -/
def pyLower (s : String) : String := ⟨s.data.map Char.toLower⟩

/-- Helper for `pySplitCh`: accumulates the current chunk (reversed). -/
def pySplitChAux (sep : Char) : List Char → List Char → List (List Char)
  | [], acc => [acc.reverse]
  | c :: rest, acc =>
    if c = sep then acc.reverse :: pySplitChAux sep rest []
    else pySplitChAux sep rest (c :: acc)

/-- Python `str.split(sep)` for a single-character separator: splits on
every occurrence, keeping empty chunks (`"".split(sep) == [""]`). -/
def pySplitCh (sep : Char) (s : String) : List String :=
  (pySplitChAux sep s.data []).map fun l => String.mk l

/-- Python `haystack.startswith(needle)` on character lists. -/
def strStartsWith : List Char → List Char → Bool
  | _, [] => true
  | [], _ :: _ => false
  | h :: hs, n :: ns => h = n && strStartsWith hs ns

/-- Python `needle in haystack` (substring containment) on character lists. -/
def strFind : List Char → List Char → Bool
  | [], needle => strStartsWith [] needle
  | c :: hs, needle => strStartsWith (c :: hs) needle || strFind hs needle

/-- All characters are decimal digits and the string is non-empty
(the shape of a field matched by `%d`, `%m` or `%Y`). -/
def allDigits (l : List Char) : Bool :=
  !l.isEmpty && l.all fun c => c.isDigit

/-- Decimal value of a digit list. -/
def digitsToNatAux (acc : Nat) : List Char → Nat
  | [] => acc
  | c :: cs => digitsToNatAux (acc * 10 + (c.toNat - 48)) cs

/-- Decimal value of a digit string. -/
def digitsToNat (l : List Char) : Nat := digitsToNatAux 0 l

/-- Length of a month, with the Gregorian leap rule (the validation
`datetime.datetime.strptime` applies to the day field). -/
def daysInMonth (year month : Nat) : Nat :=
  if month = 2 then
    if year % 4 = 0 ∧ (year % 100 ≠ 0 ∨ year % 400 = 0) then 29 else 28
  else if month = 4 ∨ month = 6 ∨ month = 9 ∨ month = 11 then 30
  else 31

/-- `datetime.datetime.strptime(s, '%d/%m/%Y')`: three slash-separated
decimal fields (`%d`, `%m` at most two digits; `%Y` at most four), which
must form a valid calendar date; anything else raises `ValueError`,
modelled as `none`. -/
def strptimeDMY (s : String) : Option PyDate :=
  match pySplitCh '/' s with
  | [ds, ms, ys] =>
    let dl := ds.data; let ml := ms.data; let yl := ys.data
    if allDigits dl ∧ dl.length ≤ 2 ∧ allDigits ml ∧ ml.length ≤ 2 ∧
        allDigits yl ∧ yl.length ≤ 4 then
      let d := digitsToNat dl; let m := digitsToNat ml; let y := digitsToNat yl
      if 1 ≤ y ∧ 1 ≤ m ∧ m ≤ 12 ∧ 1 ≤ d ∧ d ≤ daysInMonth y m then
        some ⟨y, m, d⟩
      else none
    else none
  | _ => none

/-- Digits of a natural number, most significant first (fuel-based so the
kernel can evaluate it). -/
def natDigitsAux : Nat → Nat → List Char
  | 0, _ => []
  | fuel + 1, n =>
    if n = 0 then []
    else natDigitsAux fuel (n / 10) ++ [Char.ofNat (48 + n % 10)]

/-- Decimal rendering of a natural number. -/
def natToStr (n : Nat) : String :=
  if n = 0 then "0" else ⟨natDigitsAux (n + 1) n⟩

/-- Left-pad a decimal rendering with zeros to width `w`. -/
def padZero (w n : Nat) : String :=
  let s := natToStr n
  ⟨List.replicate (w - s.data.length) '0' ++ s.data⟩

/-- `d.strftime('%d/%m/%Y')`: zero-padded day and month, four-digit year. -/
def strftimeDMY (d : PyDate) : String :=
  padZero 2 d.day ++ "/" ++ padZero 2 d.month ++ "/" ++ padZero 4 d.year

/-- The date argument handling shared by the entity constructors:
`datetime.datetime.strptime(due_date, '%d/%m/%Y') if due_date else None`.
A truthy string that fails to parse raises `ValueError`. -/
def parseOptDate (due_date : Option String) : Except PyError (Option PyDate) :=
  if strTruthy due_date then
    match strptimeDMY (pyStr due_date) with
    | some d => Except.ok (some d)
    | none => Except.error (PyError.valueError "time data does not match format dd/mm/yyyy")
  else Except.ok none

/-- The guard `self.due_date and other_due_date and other_due_date > self.due_date`
used by `add_sub_task` and `edit_sub_task` (a `datetime` object is always
truthy, so truthiness is just presence). -/
def dateViolation (mainDue subDue : Option PyDate) : Bool :=
  match mainDue, subDue with
  | some md, some sd => PyDate.ltb md sd
  | _, _ => false

/-- Class `SubTask` (fields after construction; the constructor has parsed
the date string already). -/
structure SubTask where
  details : String
  due_date : Option PyDate
  priority : String
  class_code : String
  completed : Bool
deriving DecidableEq

/-- `SubTask.__init__`: parses the optional due-date string; a truthy
unparsable string raises. -/
def SubTask.init (details : String) (due_date : Option String) (priority : String)
    (class_code : String) (completed : Bool) : Except PyError SubTask :=
  match parseOptDate due_date with
  | Except.error e => Except.error e
  | Except.ok d => Except.ok ⟨details, d, priority, class_code, completed⟩

/-- `SubTask.mark_as_completed`. -/
def SubTask.mark_as_completed (st : SubTask) : SubTask := { st with completed := true }

/-- The dictionary produced by `SubTask.to_dict` / consumed by
`SubTask.from_dict`.  `due_date` is `Option String`: `none` is JSON null. -/
structure SubTaskDict where
  details : String
  due_date : Option String
  priority : String
  class_code : String
  completed : Bool
deriving DecidableEq

/-- `SubTask.to_dict`: formats the date when present, else stores `None`. -/
def SubTask.to_dict (st : SubTask) : SubTaskDict :=
  ⟨st.details, st.due_date.map strftimeDMY, st.priority, st.class_code, st.completed⟩

/-- `SubTask.from_dict`: note `due_date=str(data["due_date"])`, which turns
a null date into the string `"None"` before the constructor parses it. -/
def SubTask.from_dict (data : SubTaskDict) : Except PyError SubTask :=
  SubTask.init data.details (some (pyStr data.due_date)) data.priority
    data.class_code data.completed

/-- Class `MainTask` (fields after construction). -/
structure MainTask where
  name : String
  due_date : Option PyDate
  priority : String
  status : String
  class_code : Option String
  sub_tasks : List SubTask
deriving DecidableEq

/-- `MainTask.__init__`: parses the optional due-date string and starts
with an empty sub-task list. -/
def MainTask.init (name : String) (due_date : Option String) (priority status : String)
    (class_code : Option String) : Except PyError MainTask :=
  match parseOptDate due_date with
  | Except.error e => Except.error e
  | Except.ok d => Except.ok ⟨name, d, priority, status, class_code, []⟩

/-- `MainTask.add_sub_task`: raises `ValueError` when both due dates are
present and the sub-task's is strictly later; otherwise appends. -/
def MainTask.add_sub_task (m : MainTask) (sub_task : SubTask) : MainTask × Option PyError :=
  if dateViolation m.due_date sub_task.due_date then
    (m, some (PyError.valueError "Sub-task due date cannot be after the main task due date."))
  else ({ m with sub_tasks := m.sub_tasks ++ [sub_task] }, none)

/-- `MainTask.delete_sub_task`: 1-based bounds check, then `del`. -/
def MainTask.delete_sub_task (m : MainTask) (sub_task_index : Int) : MainTask × Option PyError :=
  if 1 ≤ sub_task_index ∧ sub_task_index ≤ (m.sub_tasks.length : Int) then
    ({ m with sub_tasks := m.sub_tasks.eraseIdx (sub_task_index - 1).toNat }, none)
  else (m, some (PyError.indexError "Sub-task index out of range."))

/-- `MainTask.mark_sub_task_as_completed`. -/
def MainTask.mark_sub_task_as_completed (m : MainTask) (sub_task_index : Int) :
    MainTask × Option PyError :=
  if 1 ≤ sub_task_index ∧ sub_task_index ≤ (m.sub_tasks.length : Int) then
    match m.sub_tasks.get? (sub_task_index - 1).toNat with
    | some st =>
      ({ m with sub_tasks :=
          (m.sub_tasks.set (sub_task_index - 1).toNat st.mark_as_completed) }, none)
    | none => (m, some (PyError.indexError "Sub-task index out of range."))
  else (m, some (PyError.indexError "Sub-task index out of range."))

/-- The statement sequence in the body of `MainTask.edit_sub_task` acting on
the selected sub-task: `details` is assigned first; a provided due date is
then parsed and checked against the main task's due date, raising if it is
later — with the `details` assignment already performed; `priority` is
assigned last. -/
def editSubTaskFields (mainDue : Option PyDate) (st : SubTask)
    (details due_date priority : Option String) : SubTask × Option PyError :=
  let st1 := if strTruthy details then { st with details := pyStr details } else st
  if strTruthy due_date then
    match strptimeDMY (pyStr due_date) with
    | none => (st1, some (PyError.valueError "time data does not match format dd/mm/yyyy"))
    | some nd =>
      if dateViolation mainDue (some nd) then
        (st1, some (PyError.valueError "Sub-task due date cannot be after the main task due date."))
      else
        let st2 := { st1 with due_date := some nd }
        (if strTruthy priority then { st2 with priority := pyStr priority } else st2, none)
  else
    (if strTruthy priority then { st1 with priority := pyStr priority } else st1, none)

/-- `MainTask.edit_sub_task`: 1-based bounds check, then the field edits of
`editSubTaskFields` applied in place to the selected sub-task. -/
def MainTask.edit_sub_task (m : MainTask) (sub_task_index : Int)
    (details due_date priority : Option String) : MainTask × Option PyError :=
  if 1 ≤ sub_task_index ∧ sub_task_index ≤ (m.sub_tasks.length : Int) then
    match m.sub_tasks.get? (sub_task_index - 1).toNat with
    | some st =>
      let r := editSubTaskFields m.due_date st details due_date priority
      ({ m with sub_tasks := m.sub_tasks.set (sub_task_index - 1).toNat r.1 }, r.2)
    | none => (m, some (PyError.indexError "Sub-task index out of range."))
  else (m, some (PyError.indexError "Sub-task index out of range."))

/-- `MainTask.mark_as_completed`. -/
def MainTask.mark_as_completed (m : MainTask) : MainTask := { m with status := "Completed" }

/-- `MainTask.search_sub_tasks` (value level): a truthy keyword filters by
case-insensitive substring match on `details`; otherwise all sub-tasks. -/
def MainTask.search_sub_tasks (m : MainTask) (keyword : Option String) : List SubTask :=
  if strTruthy keyword then
    let kw := pyLower (pyStr keyword)
    m.sub_tasks.filter fun st => strFind (pyLower st.details).data kw.data
  else m.sub_tasks

/-- The dictionary produced by `MainTask.to_dict`. -/
structure MainTaskDict where
  name : String
  due_date : Option String
  priority : String
  status : String
  class_code : Option String
  sub_tasks : List SubTaskDict
deriving DecidableEq

/-- `MainTask.to_dict`. -/
def MainTask.to_dict (m : MainTask) : MainTaskDict :=
  ⟨m.name, m.due_date.map strftimeDMY, m.priority, m.status, m.class_code,
    m.sub_tasks.map SubTask.to_dict⟩

/-- `MainTask.from_dict`: builds the task through the constructor — with
`due_date=str(data["due_date"])` and `class_code=str(data.get("class_code"))`,
so a null date becomes the string `"None"` — then deserializes the sub-tasks. -/
def MainTask.from_dict (data : MainTaskDict) : Except PyError MainTask :=
  match MainTask.init data.name (some (pyStr data.due_date)) data.priority data.status
      (some (pyStr data.class_code)) with
  | Except.error e => Except.error e
  | Except.ok mt =>
    match data.sub_tasks.mapM SubTask.from_dict with
    | Except.error e => Except.error e
    | Except.ok subs => Except.ok { mt with sub_tasks := subs }

/-- `Student.hash_password` with the digest function (`hashlib.sha256(·).hexdigest()`)
abstracted: the salt is the first 16 hex characters of the digest of the
plaintext; the credential is `digest(salt + password) + ':' + salt`. -/
def hash_password (digest : String → String) (password : String) : String :=
  let salt := pyTake 16 (digest password)
  digest (salt ++ password) ++ ":" ++ salt

/-- `Student.verify_password`: `stored_password, salt = stored.split(':')`
(raising `ValueError` unless the split has exactly two parts), then an
equality test against `digest(salt + candidate)`. -/
def verify_password (digest : String → String) (stored password : String) :
    Except PyError Bool :=
  match pySplitCh ':' stored with
  | [stored_password, salt] => Except.ok (stored_password == digest (salt ++ password))
  | _ => Except.error (PyError.valueError "not enough values to unpack")

/-- Class `Student` (fields after construction). -/
structure Student where
  student_id : String
  password : String
  task_lists : List MainTask
deriving DecidableEq

/-- `Student.add_task_list`: unconditional append. -/
def Student.add_task_list (s : Student) (task_list : MainTask) : Student :=
  { s with task_lists := s.task_lists ++ [task_list] }

/-- `Student.delete_task_list`: 1-based bounds check, then `del`. -/
def Student.delete_task_list (s : Student) (list_index : Int) : Student × Option PyError :=
  if 1 ≤ list_index ∧ list_index ≤ (s.task_lists.length : Int) then
    ({ s with task_lists := s.task_lists.eraseIdx (list_index - 1).toNat }, none)
  else (s, some (PyError.indexError "Task list index out of range."))

/-- Trailing field assignments of `Student.edit_task_list` (priority,
status, class code), each applied only when truthy. -/
def applyTaskTail (m : MainTask) (priority status class_code : Option String) : MainTask :=
  let m1 := if strTruthy priority then { m with priority := pyStr priority } else m
  let m2 := if strTruthy status then { m1 with status := pyStr status } else m1
  if strTruthy class_code then { m2 with class_code := some (pyStr class_code) } else m2

/-- The statement sequence in the body of `Student.edit_task_list` acting on
the selected task: name, then a provided due date is parsed and assigned
with no re-validation against the task's sub-task due dates, then
priority/status/class code. -/
def editTaskFields (m : MainTask) (name due_date priority status class_code : Option String) :
    MainTask × Option PyError :=
  let m1 := if strTruthy name then { m with name := pyStr name } else m
  if strTruthy due_date then
    match strptimeDMY (pyStr due_date) with
    | none => (m1, some (PyError.valueError "time data does not match format dd/mm/yyyy"))
    | some d => (applyTaskTail { m1 with due_date := some d } priority status class_code, none)
  else (applyTaskTail m1 priority status class_code, none)

/-- `Student.edit_task_list`: 1-based bounds check, then the field edits of
`editTaskFields` applied in place to the selected task. -/
def Student.edit_task_list (s : Student) (list_index : Int)
    (name due_date priority status class_code : Option String) : Student × Option PyError :=
  if 1 ≤ list_index ∧ list_index ≤ (s.task_lists.length : Int) then
    match s.task_lists.get? (list_index - 1).toNat with
    | some m =>
      let r := editTaskFields m name due_date priority status class_code
      ({ s with task_lists := s.task_lists.set (list_index - 1).toNat r.1 }, r.2)
    | none => (s, some (PyError.indexError "Task list index out of range."))
  else (s, some (PyError.indexError "Task list index out of range."))

/-- The caller-side access path `student.task_lists[i - 1].<method>(...)`
used by the menu layer for every sub-task operation: it is guarded by the
same `1 <= i <= len(student.task_lists)` bounds check and writes the
mutated task back in place (out of bounds, the student is untouched). -/
def Student.withTask (s : Student) (list_index : Int)
    (f : MainTask → MainTask × Option PyError) : Student × Option PyError :=
  if 1 ≤ list_index ∧ list_index ≤ (s.task_lists.length : Int) then
    match s.task_lists.get? (list_index - 1).toNat with
    | some m =>
      let r := f m
      ({ s with task_lists := s.task_lists.set (list_index - 1).toNat r.1 }, r.2)
    | none => (s, none)
  else (s, none)

/-- The dictionary produced by `Student.to_dict`: only `password` and
`task_lists`; the id is not embedded. -/
structure StudentDict where
  password : String
  task_lists : List MainTaskDict
deriving DecidableEq

/-- `Student.to_dict`. -/
def Student.to_dict (s : Student) : StudentDict :=
  ⟨s.password, s.task_lists.map MainTask.to_dict⟩

/-- `Student.from_dict`: after deserializing the task lists, the source
executes `Student(student_id, str, data["password"], task_lists, is_hashed=True)`
— the builtin `str` is passed as the password and `is_hashed` receives both
a positional and a keyword value, so the call raises `TypeError` before the
constructor body runs. -/
def Student.from_dict (student_id : String) (data : StudentDict) : Except PyError Student :=
  match data.task_lists.mapM MainTask.from_dict with
  | Except.error e => Except.error e
  | Except.ok _task_lists =>
    Except.error (PyError.typeError "Student() got multiple values for argument is_hashed")

/-- The outcome of opening and JSON-parsing the database file in
`StudentDatabase.load_students`. -/
inductive FileRead where
  | missing
  | malformed
  | parsed (data : List (String × StudentDict))

/-- `StudentDatabase.load_students`: every exception is caught; the result
is the loaded mapping paired with the diagnostics printed.  A missing file
and undecodable JSON both yield the empty mapping with a message; any
exception escaping the per-student `Student.from_dict` comprehension is
caught by the final handler, also yielding the empty mapping. -/
def StudentDatabase.load_students : FileRead → List (String × Student) × List String
  | FileRead.missing => ([], ["File not found. Creating a new student database."])
  | FileRead.malformed => ([], ["Error decoding JSON. The file might be corrupted."])
  | FileRead.parsed data =>
    match data.mapM (fun p => (Student.from_dict p.1 p.2).map fun st => (p.1, st)) with
    | Except.ok students => (students, [])
    | Except.error _ => ([], ["An unexpected error occurred."])

/-- The date-containment invariant of a `MainTask`: no owned sub-task has a
due date strictly later than the task's own due date (vacuous when either
date is absent). -/
def MainTask.datesOk (m : MainTask) : Bool :=
  m.sub_tasks.all fun st => !(dateViolation m.due_date st.due_date)

/-- The date-containment invariant over a whole `Student` aggregate. -/
def Student.datesOk (s : Student) : Bool :=
  s.task_lists.all MainTask.datesOk

/-- The states reachable from a freshly constructed `Student` (empty task
list) through the exposed operations.  Main tasks enter through the
constructor, so with an empty sub-task list; sub-task operations reach the
owned tasks through the bounds-checked `task_lists[i - 1]` access path.
With `unrestricted = true` every operation is available; with
`unrestricted = false`, `edit_task_list` calls never carry a (truthy) due
date — the one restriction under which the invariant is preserved. -/
inductive Reach (unrestricted : Bool) : Student → Prop where
  | init (id pw : String) : Reach unrestricted ⟨id, pw, []⟩
  | add_task_list {s : Student} (m : MainTask) (hm : m.sub_tasks = []) :
      Reach unrestricted s → Reach unrestricted (s.add_task_list m)
  | delete_task_list {s : Student} (k : Int) :
      Reach unrestricted s → Reach unrestricted (s.delete_task_list k).1
  | edit_task_list {s : Student} (k : Int) (name due_date priority status class_code : Option String)
      (hdue : strTruthy due_date = false ∨ unrestricted = true) :
      Reach unrestricted s →
      Reach unrestricted (s.edit_task_list k name due_date priority status class_code).1
  | add_sub_task {s : Student} (i : Int) (sub : SubTask) :
      Reach unrestricted s →
      Reach unrestricted (s.withTask i (fun m => m.add_sub_task sub)).1
  | edit_sub_task {s : Student} (i k : Int) (details due_date priority : Option String) :
      Reach unrestricted s →
      Reach unrestricted (s.withTask i (fun m => m.edit_sub_task k details due_date priority)).1
  | delete_sub_task {s : Student} (i k : Int) :
      Reach unrestricted s →
      Reach unrestricted (s.withTask i (fun m => m.delete_sub_task k)).1
  | mark_sub_task {s : Student} (i k : Int) :
      Reach unrestricted s →
      Reach unrestricted (s.withTask i (fun m => m.mark_sub_task_as_completed k)).1
  | mark_main_task {s : Student} (i : Int) :
      Reach unrestricted s →
      Reach unrestricted (s.withTask i (fun m => (m.mark_as_completed, none))).1

/-- Heap of Python list objects, for the object-identity behaviour of
`search_sub_tasks`: an index into the heap is a list object reference. -/
abbrev Heap : Type := List (List SubTask)

/-- Dereference a list object. -/
def heapGet (h : Heap) (r : Nat) : List SubTask :=
  List.getD h r []

/-- A `MainTask` as it lives on the heap: its `sub_tasks` field is a
reference to a list object (the other fields are irrelevant to search). -/
structure MainTaskH where
  due_date : Option PyDate
  subTasksRef : Nat

/-- `MainTask.search_sub_tasks` at the object level: a truthy keyword
builds the filtered result as a fresh list object (a comprehension
allocates); otherwise the method returns `self.sub_tasks` itself — the very
list object the task owns, not a copy. -/
def searchSubTasksH (h : Heap) (m : MainTaskH) (keyword : Option String) : Heap × Nat :=
  if strTruthy keyword then
    let kw := pyLower (pyStr keyword)
    let res := (heapGet h m.subTasksRef).filter fun st => strFind (pyLower st.details).data kw.data
    (List.append h [res], h.length)
  else (h, m.subTasksRef)

/-- In-place `list.append` on a heap list object. -/
def heapListAppend (h : Heap) (r : Nat) (x : SubTask) : Heap :=
  List.set h r (heapGet h r ++ [x])

/-- Sample values used to instantiate the theorems (the spec's scenario:
main task "Essay" due 01/06/2025 with sub-task "Draft intro" due
15/05/2025). -/
def draftIntro : SubTask := ⟨"Draft intro", some ⟨2025, 5, 15⟩, "Medium", "ICT120", false⟩

/-- A sub-task with a due date after the Essay task's. -/
def lateSub : SubTask := ⟨"Late sub", some ⟨2025, 6, 10⟩, "Low", "ICT120", false⟩

/-- A sub-task with no due date. -/
def noDateSub : SubTask := ⟨"Tidy notes", none, "Low", "ICT120", false⟩

/-- The "Essay" main task before any sub-task is added. -/
def essayTask : MainTask := ⟨"Essay", some ⟨2025, 6, 1⟩, "High", "Not Started", some "ICT120", []⟩

/-- The "Essay" main task with the draft sub-task attached. -/
def essayWithDraft : MainTask := { essayTask with sub_tasks := [draftIntro] }

/-- A main task with no due date. -/
def noDateTask : MainTask := ⟨"Reading", none, "Low", "Not Started", none, []⟩

/-- The success condition the spec states for `add_sub_task`: the sub-task's
due date is not strictly after the main task's, or at least one of the
two dates is absent. -/
def dueDateOkP (mainDue subDue : Option PyDate) : Prop :=
  mainDue = none ∨ subDue = none ∨
    ∃ a b, mainDue = some a ∧ subDue = some b ∧ PyDate.ltb a b = false

lemma dateViolation_false_iff (md sd : Option PyDate) :
    dateViolation md sd = false ↔ dueDateOkP md sd := by
  cases md <;> cases sd <;> simp [dateViolation, dueDateOkP]

/-- Claim C7: `load()` on a missing file returns an empty store without any
exception reaching the caller (the model is a total function), and on
malformed content returns an empty store together with a printed
diagnostic. -/
theorem load_students_degrades_to_empty :
    StudentDatabase.load_students FileRead.missing
      = ([], ["File not found. Creating a new student database."])
    ∧ (StudentDatabase.load_students FileRead.malformed).1 = []
    ∧ (StudentDatabase.load_students FileRead.malformed).2 ≠ [] := by
  decide

/-- Claim C9: serializing a `SubTask` with no due date stores a null
`due_date`, not the string `"None"` and not the empty string. -/
theorem subtask_absent_due_serializes_null (st : SubTask) (h : st.due_date = none) :
    (SubTask.to_dict st).due_date = none
    ∧ (SubTask.to_dict st).due_date ≠ some "None"
    ∧ (SubTask.to_dict st).due_date ≠ some "" := by
  simp [SubTask.to_dict, h]

/-- Witness for `subtask_absent_due_serializes_null` at a concrete sub-task. -/
theorem subtask_absent_due_serializes_null_witness :
    (SubTask.to_dict noDateSub).due_date = none
    ∧ (SubTask.to_dict noDateSub).due_date ≠ some "None"
    ∧ (SubTask.to_dict noDateSub).due_date ≠ some "" :=
  subtask_absent_due_serializes_null noDateSub rfl

/-- Claim C10: an entity whose due date is absent does not survive its own
serialize/deserialize cycle: `from_dict` coerces the null date to the
string `"None"`, which the `dd/mm/yyyy` parser rejects with a format
error, for sub-tasks and for main tasks alike. -/
theorem entity_from_dict_absent_due_fails (st : SubTask) (m : MainTask)
    (hst : st.due_date = none) (hm : m.due_date = none) :
    SubTask.from_dict (SubTask.to_dict st)
      = Except.error (PyError.valueError "time data does not match format dd/mm/yyyy")
    ∧ MainTask.from_dict (MainTask.to_dict m)
      = Except.error (PyError.valueError "time data does not match format dd/mm/yyyy") := by
  have h1 : parseOptDate (some "None")
      = Except.error (PyError.valueError "time data does not match format dd/mm/yyyy") := by
    decide
  constructor
  · simp [SubTask.from_dict, SubTask.to_dict, hst, SubTask.init, pyStr, h1]
  · simp [MainTask.from_dict, MainTask.to_dict, hm, MainTask.init, pyStr, h1]

/-- Witness for `entity_from_dict_absent_due_fails` at concrete entities. -/
theorem entity_from_dict_absent_due_fails_witness :
    SubTask.from_dict (SubTask.to_dict noDateSub)
      = Except.error (PyError.valueError "time data does not match format dd/mm/yyyy")
    ∧ MainTask.from_dict (MainTask.to_dict noDateTask)
      = Except.error (PyError.valueError "time data does not match format dd/mm/yyyy") :=
  entity_from_dict_absent_due_fails noDateSub noDateTask rfl rfl

/-- Claim C1: the round-trip law fails for every `Student` value — the code
is at fault: `Student.from_dict` executes
`Student(student_id, str, data["password"], task_lists, is_hashed=True)`,
which raises `TypeError` unconditionally, so deserialization never returns
a `Student` at all (the repository's own `test_from_dict` and
`test_save_and_load_students` tests fail on it). -/
theorem student_from_dict_roundtrip_fails (x : Student) :
    ∃ e, Student.from_dict x.student_id (Student.to_dict x) = Except.error e := by
  cases h : (Student.to_dict x).task_lists.mapM MainTask.from_dict with
  | error e => exact ⟨e, by unfold Student.from_dict; rw [h]⟩
  | ok l =>
    exact ⟨PyError.typeError "Student() got multiple values for argument is_hashed",
      by unfold Student.from_dict; rw [h]⟩

/-- Claim C4: `add_sub_task` succeeds exactly when the sub-task's due date
is not strictly after the main task's or one of the dates is absent; on
success the sub-task is appended at the end, on failure the task is
unchanged. -/
theorem add_sub_task_spec (m : MainTask) (s : SubTask) :
    ((m.add_sub_task s).2 = none ↔ dueDateOkP m.due_date s.due_date)
    ∧ ((m.add_sub_task s).2 = none → (m.add_sub_task s).1.sub_tasks = m.sub_tasks ++ [s])
    ∧ ((m.add_sub_task s).2 ≠ none → (m.add_sub_task s).1 = m) := by
  cases hv : dateViolation m.due_date s.due_date with
  | false =>
    refine ⟨?_, fun _ => by simp [MainTask.add_sub_task, hv], fun hne => ?_⟩
    · simp [MainTask.add_sub_task, hv]
      exact (dateViolation_false_iff _ _).mp hv
    · simp [MainTask.add_sub_task, hv] at hne
  | true =>
    refine ⟨?_, fun hok => ?_, fun _ => by simp [MainTask.add_sub_task, hv]⟩
    · simp [MainTask.add_sub_task, hv]
      intro hp
      have := (dateViolation_false_iff m.due_date s.due_date).mpr hp
      rw [hv] at this
      exact Bool.true_eq_false.mp this
    · simp [MainTask.add_sub_task, hv] at hok

/-- Witness for `add_sub_task_spec`: the spec's scenario succeeds and
appends. -/
theorem add_sub_task_spec_witness :
    (essayTask.add_sub_task draftIntro).1.sub_tasks = essayTask.sub_tasks ++ [draftIntro] :=
  (add_sub_task_spec essayTask draftIntro).2.1 (by decide)

lemma eraseIdx_take_drop {α : Type} (l : List α) (k : Int) (h1 : 1 ≤ k)
    (h2 : k ≤ (l.length : Int)) :
    l.eraseIdx (k.toNat - 1) = l.take (k.toNat - 1) ++ l.drop k.toNat
    ∧ (l.eraseIdx (k.toNat - 1)).length = l.length - 1 := by
  have hk2 : k.toNat - 1 + 1 = k.toNat := by omega
  have hlt : k.toNat - 1 < l.length := by omega
  constructor
  · rw [List.eraseIdx_eq_take_drop_succ, hk2]
  · have := List.length_eraseIdx_add_one hlt
    omega

/-- Claim C8: deleting 1-based position `k` from a sub-task or task-list
collection of length `n` with `1 ≤ k ≤ n` removes exactly the element at
position `k`, keeping every other element in relative order (the result is
the prefix before it followed by the suffix after it) and shrinking the
length by one; any `k` outside `[1, n]` — including `0` and negatives — is
rejected with an index error, leaving the collection unchanged. -/
theorem delete_position_spec (m : MainTask) (s : Student) (k : Int) :
    (1 ≤ k → k ≤ (m.sub_tasks.length : Int) →
      (m.delete_sub_task k).2 = none
      ∧ (m.delete_sub_task k).1.sub_tasks
          = m.sub_tasks.take (k.toNat - 1) ++ m.sub_tasks.drop k.toNat
      ∧ (m.delete_sub_task k).1.sub_tasks.length = m.sub_tasks.length - 1)
    ∧ (¬(1 ≤ k ∧ k ≤ (m.sub_tasks.length : Int)) →
      (m.delete_sub_task k).1 = m ∧ (m.delete_sub_task k).2 ≠ none)
    ∧ (1 ≤ k → k ≤ (s.task_lists.length : Int) →
      (s.delete_task_list k).2 = none
      ∧ (s.delete_task_list k).1.task_lists
          = s.task_lists.take (k.toNat - 1) ++ s.task_lists.drop k.toNat
      ∧ (s.delete_task_list k).1.task_lists.length = s.task_lists.length - 1)
    ∧ (¬(1 ≤ k ∧ k ≤ (s.task_lists.length : Int)) →
      (s.delete_task_list k).1 = s ∧ (s.delete_task_list k).2 ≠ none) := by
  refine ⟨fun h1 h2 => ?_, fun hout => ?_, fun h1 h2 => ?_, fun hout => ?_⟩
  · obtain ⟨he1, he2⟩ := eraseIdx_take_drop m.sub_tasks k h1 h2
    simp [MainTask.delete_sub_task, h1, h2, he1, he2]
    omega
  · simp [MainTask.delete_sub_task, hout]
  · obtain ⟨he1, he2⟩ := eraseIdx_take_drop s.task_lists k h1 h2
    simp [Student.delete_task_list, h1, h2, he1, he2]
    omega
  · simp [Student.delete_task_list, hout]

/-- Witness for `delete_position_spec`: deleting position 1 from the
one-element scenario collections. -/
theorem delete_position_spec_witness :
    (essayWithDraft.delete_sub_task 1).1.sub_tasks
      = essayWithDraft.sub_tasks.take ((1 : Int).toNat - 1)
        ++ essayWithDraft.sub_tasks.drop (1 : Int).toNat :=
  ((delete_position_spec essayWithDraft (Student.mk "s1" "pw" []) 1).1
    (by decide) (by decide)).2.1

/-- Claim C2 fails on the code: an `edit_sub_task` call whose due date
violates the containment invariant does raise, but a `details` value
provided in the same call has already been assigned, so the sub-task is
not left unchanged. Concretely: the Essay task (due 01/06/2025) holds a
sub-task, and an edit providing new details together with the late due
date 10/06/2025 fails yet changes the details. -/
theorem edit_sub_task_not_atomic :
    ((essayWithDraft.edit_sub_task 1 (some "Draft intro v2") (some "10/06/2025") (some "Low")).2
      ≠ none)
    ∧ ((essayWithDraft.edit_sub_task 1
        (some "Draft intro v2") (some "10/06/2025") (some "Low")).1.sub_tasks.get? 0
      = some { draftIntro with details := "Draft intro v2" })
    ∧ { draftIntro with details := "Draft intro v2" } ≠ draftIntro := by
  decide

lemma get?_some_lt {α : Type} {l : List α} {i : Nat} {a : α} (h : l.get? i = some a) :
    i < l.length := by
  induction l generalizing i with
  | nil => simp [List.get?] at h
  | cons x t ih =>
    cases i with
    | zero => simp
    | succ n => simpa using ih (by simpa using h)

lemma get?_set_self {α : Type} (l : List α) (i : Nat) (b : α) (h : i < l.length) :
    (l.set i b).get? i = some b := by
  induction l generalizing i with
  | nil => simp at h
  | cons a t ih =>
    cases i with
    | zero => rfl
    | succ n => simpa using ih n (by simpa using h)

/-- Claim C2, amended: on a due-date violation `edit_sub_task` raises and
applies neither the due date nor the priority, but a truthy `details`
argument in the same call has already been applied — the edit is atomic
only for the fields ordered after the due-date check. -/
theorem edit_sub_task_partial_application (m : MainTask) (k : Int)
    (details due_date priority : Option String) (st : SubTask) (nd : PyDate)
    (hk1 : 1 ≤ k) (hk2 : k ≤ (m.sub_tasks.length : Int))
    (hget : m.sub_tasks.get? (k - 1).toNat = some st)
    (hdd : strTruthy due_date = true)
    (hparse : strptimeDMY (pyStr due_date) = some nd)
    (hviol : dateViolation m.due_date (some nd) = true) :
    (m.edit_sub_task k details due_date priority).2
      = some (PyError.valueError "Sub-task due date cannot be after the main task due date.")
    ∧ (m.edit_sub_task k details due_date priority).1.sub_tasks.get? (k - 1).toNat
      = some (if strTruthy details then { st with details := pyStr details } else st) := by
  have hfields : editSubTaskFields m.due_date st details due_date priority
      = ((if strTruthy details then { st with details := pyStr details } else st),
         some (PyError.valueError "Sub-task due date cannot be after the main task due date.")) := by
    simp [editSubTaskFields, hdd, hparse, hviol]
  unfold MainTask.edit_sub_task
  rw [if_pos ⟨hk1, hk2⟩, hget]
  dsimp only
  rw [hfields]
  exact ⟨rfl, get?_set_self _ _ _ (get?_some_lt hget)⟩

/-- Witness for `edit_sub_task_partial_application` at the scenario task. -/
theorem edit_sub_task_partial_application_witness :
    (essayWithDraft.edit_sub_task 1 (some "Draft intro v2") (some "10/06/2025") (some "Low")).2
      = some (PyError.valueError "Sub-task due date cannot be after the main task due date.") :=
  (edit_sub_task_partial_application essayWithDraft 1 (some "Draft intro v2")
    (some "10/06/2025") (some "Low") draftIntro ⟨2025, 6, 10⟩
    (by decide) (by decide) (by decide) (by decide) (by decide) (by decide)).1

lemma string_mk_data (s : String) : String.mk s.data = s := rfl

lemma pySplitChAux_no_sep (sep : Char) (b acc : List Char) (hb : sep ∉ b) :
    pySplitChAux sep b acc = [acc.reverse ++ b] := by
  induction b generalizing acc with
  | nil => simp [pySplitChAux]
  | cons c cs ih =>
    have hc : ¬(c = sep) := fun h => hb (h ▸ List.mem_cons_self c cs)
    have hcs : sep ∉ cs := fun h => hb (List.mem_cons_of_mem _ h)
    simp only [pySplitChAux, if_neg hc, ih _ hcs, List.reverse_cons, List.append_assoc,
      List.singleton_append]

lemma pySplitChAux_sep (sep : Char) (a b acc : List Char) (ha : sep ∉ a) :
    pySplitChAux sep (a ++ sep :: b) acc = (acc.reverse ++ a) :: pySplitChAux sep b [] := by
  induction a generalizing acc with
  | nil => simp [pySplitChAux]
  | cons c cs ih =>
    have hc : ¬(c = sep) := fun h => ha (h ▸ List.mem_cons_self c cs)
    have hcs : sep ∉ cs := fun h => ha (List.mem_cons_of_mem _ h)
    simp only [List.cons_append, pySplitChAux, if_neg hc, List.append_eq, ih _ hcs,
      List.reverse_cons, List.append_assoc, List.singleton_append, List.nil_append]

/-- Claim C5: for every password `p` and every hex-producing digest (one
whose output never contains the `':'` separator — true of
`hashlib.sha256(...).hexdigest()`), verifying `p` against
`hash_password(p)` — salt = first 16 hex characters of `digest(p)`,
credential = `digest(salt + p) + ':' + salt` — succeeds. -/
theorem verify_hash_roundtrip (digest : String → String) (p : String)
    (hd : ∀ s, ':' ∉ (digest s).data) :
    verify_password digest (hash_password digest p) p = Except.ok true := by
  unfold hash_password verify_password
  have hsaltn : ':' ∉ (pyTake 16 (digest p)).data := by
    intro hmem
    exact hd p (List.take_subset _ _ hmem)
  have hdata : (digest (pyTake 16 (digest p) ++ p) ++ ":" ++ pyTake 16 (digest p)).data
      = (digest (pyTake 16 (digest p) ++ p)).data ++ ':' :: (pyTake 16 (digest p)).data := by
    rw [String.data_append, String.data_append]
    simp
  have hsplit : pySplitCh ':' (digest (pyTake 16 (digest p) ++ p) ++ ":" ++ pyTake 16 (digest p))
      = [digest (pyTake 16 (digest p) ++ p), pyTake 16 (digest p)] := by
    unfold pySplitCh
    rw [hdata, pySplitChAux_sep _ _ _ _ (hd _), pySplitChAux_no_sep _ _ _ hsaltn]
    simp [string_mk_data]
  rw [hsplit]
  simp

/-- Witness for `verify_hash_roundtrip` with a concrete (constant) digest
whose output has no `':'`. -/
theorem verify_hash_roundtrip_witness :
    (∀ s : String, ':' ∉ ((fun _ => "0a1b2c3d4e5f60718293a4b5") s).data)
    ∧ verify_password (fun _ => "0a1b2c3d4e5f60718293a4b5")
        (hash_password (fun _ => "0a1b2c3d4e5f60718293a4b5") "password123") "password123"
      = Except.ok true :=
  ⟨by
    intro s
    show ':' ∉ "0a1b2c3d4e5f60718293a4b5".data
    decide,
   verify_hash_roundtrip (fun _ => "0a1b2c3d4e5f60718293a4b5") "password123" (by
    intro s
    show ':' ∉ "0a1b2c3d4e5f60718293a4b5".data
    decide)⟩

lemma strStartsWith_iff (hay needle : List Char) :
    strStartsWith hay needle = true ↔ needle <+: hay := by
  induction hay generalizing needle with
  | nil => cases needle <;> simp [strStartsWith]
  | cons h hs ih =>
    cases needle with
    | nil => simp [strStartsWith]
    | cons n ns =>
      show (decide (h = n) && strStartsWith hs ns) = true ↔ _
      rw [Bool.and_eq_true, decide_eq_true_eq, ih, List.cons_prefix_cons]
      constructor
      · exact fun hp => ⟨hp.1.symm, hp.2⟩
      · exact fun hp => ⟨hp.1.symm, hp.2⟩

lemma strFind_iff (hay needle : List Char) :
    strFind hay needle = true ↔ needle <:+: hay := by
  induction hay with
  | nil =>
    show strStartsWith [] needle = true ↔ _
    rw [strStartsWith_iff, List.prefix_nil, List.infix_nil]
  | cons c hs ih =>
    show (strStartsWith (c :: hs) needle || strFind hs needle) = true ↔ _
    rw [Bool.or_eq_true, strStartsWith_iff, ih, List.infix_cons_iff]

lemma getD_append_len {α : Type} (l : List α) (x d : α) : (l ++ [x]).getD l.length d = x := by
  induction l with
  | nil => rfl
  | cons a t ih => simpa using ih

lemma heapGet_append_len (h : Heap) (R : List SubTask) :
    heapGet (List.append h [R]) h.length = R := by
  show (h ++ [R]).getD h.length [] = R
  exact getD_append_len h R []

lemma getD_set_ne {α : Type} (l : List α) (i j : Nat) (b d : α) (h : i ≠ j) :
    (l.set i b).getD j d = l.getD j d := by
  induction l generalizing i j with
  | nil => rfl
  | cons a t ih =>
    cases i with
    | zero => cases j with
      | zero => exact absurd rfl h
      | succ m => rfl
    | succ n => cases j with
      | zero => rfl
      | succ m => simpa using ih n m (by omega)

/-- Claim C6, amended: `search_sub_tasks` with a truthy keyword returns
exactly the sub-tasks whose details contain the keyword case-insensitively
(in order), and with no (or an empty) keyword returns all sub-tasks; the
result is a snapshot only in the keyword case — the filtered result is a
freshly allocated list object, so mutating it cannot change the task's own
collection — whereas with no keyword the method hands back the task's own
live `sub_tasks` list object itself. -/
theorem search_sub_tasks_spec (m : MainTask) (h : Heap) (mh : MainTaskH)
    (keyword : Option String) (l' : List SubTask) (hr : mh.subTasksRef < h.length) :
    (MainTask.search_sub_tasks m keyword
      = if strTruthy keyword then
          m.sub_tasks.filter
            (fun st => decide ((pyLower (pyStr keyword)).data <:+: (pyLower st.details).data))
        else m.sub_tasks)
    ∧ (strTruthy keyword = true →
        heapGet (searchSubTasksH h mh keyword).1 (searchSubTasksH h mh keyword).2
          = (heapGet h mh.subTasksRef).filter
              (fun st => decide ((pyLower (pyStr keyword)).data <:+: (pyLower st.details).data))
        ∧ heapGet ((searchSubTasksH h mh keyword).1.set (searchSubTasksH h mh keyword).2 l')
            mh.subTasksRef = heapGet h mh.subTasksRef)
    ∧ (strTruthy keyword = false →
        (searchSubTasksH h mh keyword).2 = mh.subTasksRef
        ∧ (searchSubTasksH h mh keyword).1 = h) := by
  have hfilter : ∀ l : List SubTask,
      (l.filter fun st => strFind (pyLower st.details).data (pyLower (pyStr keyword)).data)
      = l.filter
          (fun st => decide ((pyLower (pyStr keyword)).data <:+: (pyLower st.details).data)) := by
    intro l
    apply List.filter_congr
    intro x _
    rw [Bool.eq_iff_iff, strFind_iff]
    simp
  have hset : ∀ (hp : Heap) (i j : Nat) (b : List SubTask), i ≠ j →
      heapGet (hp.set i b) j = heapGet hp j := by
    intro hp i j b hne
    show (hp.set i b).getD j [] = hp.getD j []
    exact getD_set_ne hp i j b [] hne
  have happ : ∀ (hp : Heap) (R : List SubTask) (j : Nat), j < hp.length →
      heapGet (List.append hp [R]) j = heapGet hp j := by
    intro hp R j hj
    show (hp ++ [R]).getD j [] = hp.getD j []
    rw [List.getD_append _ _ _ _ hj]
  refine ⟨?_, fun ht => ⟨?_, ?_⟩, fun hf => ?_⟩
  · unfold MainTask.search_sub_tasks
    cases hkw : strTruthy keyword with
    | true => simpa using hfilter m.sub_tasks
    | false => simp
  · unfold searchSubTasksH
    rw [if_pos ht]
    dsimp only
    rw [heapGet_append_len]
    exact hfilter (heapGet h mh.subTasksRef)
  · unfold searchSubTasksH
    rw [if_pos ht]
    dsimp only
    rw [hset _ _ _ _ (by omega : h.length ≠ mh.subTasksRef)]
    exact happ h _ _ hr
  · unfold searchSubTasksH
    rw [if_neg (by simp [hf])]
    exact ⟨rfl, rfl⟩

/-- Witness for `search_sub_tasks_spec` at a concrete keyword search. -/
theorem search_sub_tasks_spec_witness :
    MainTask.search_sub_tasks essayWithDraft (some "draft")
      = essayWithDraft.sub_tasks.filter
          (fun st => decide ((pyLower (pyStr (some "draft"))).data
            <:+: (pyLower st.details).data)) := by
  have h := (search_sub_tasks_spec essayWithDraft [[draftIntro]] ⟨some ⟨2025, 6, 1⟩, 0⟩
    (some "draft") [] (by decide)).1
  rw [h, if_pos (by decide)]

/-- Claim C6 fails on the code for the no-keyword case: `search_sub_tasks()`
without a keyword returns the task's own `sub_tasks` list object, so an
append performed on the returned sequence is visible in the task's
collection — it is a live view, not a snapshot. -/
theorem search_no_keyword_live_view :
    heapGet (heapListAppend
        (searchSubTasksH [[draftIntro]] ⟨some ⟨2025, 6, 1⟩, 0⟩ none).1
        (searchSubTasksH [[draftIntro]] ⟨some ⟨2025, 6, 1⟩, 0⟩ none).2 noDateSub) 0
      ≠ heapGet [[draftIntro]] 0 := by
  decide

lemma all_set_of_all {α : Type} {l : List α} {p : α → Bool} {i : Nat} {b : α}
    (h : l.all p = true) (hb : p b = true) : (l.set i b).all p = true := by
  rw [List.all_eq_true] at h ⊢
  intro x hx
  rcases List.mem_or_eq_of_mem_set hx with h1 | h1
  · exact h x h1
  · exact h1 ▸ hb

lemma all_eraseIdx_of_all {α : Type} {l : List α} {p : α → Bool} {i : Nat}
    (h : l.all p = true) : (l.eraseIdx i).all p = true := by
  rw [List.all_eq_true] at h ⊢
  exact fun x hx => h x ((List.eraseIdx_sublist l i).subset hx)

lemma datesOk_of_eq {m m' : MainTask} (hd : m'.due_date = m.due_date)
    (hs : m'.sub_tasks = m.sub_tasks) (h : m.datesOk = true) : m'.datesOk = true := by
  unfold MainTask.datesOk at h ⊢
  rw [hd, hs]
  exact h

lemma applyTaskTail_fields (m : MainTask) (p st cc : Option String) :
    (applyTaskTail m p st cc).due_date = m.due_date
    ∧ (applyTaskTail m p st cc).sub_tasks = m.sub_tasks := by
  cases hp : strTruthy p <;> cases hst : strTruthy st <;> cases hcc : strTruthy cc <;>
    simp [applyTaskTail, hp, hst, hcc]

lemma editTaskFields_no_due (m : MainTask) (name due_date priority status class_code : Option String)
    (hdd : strTruthy due_date = false) :
    (editTaskFields m name due_date priority status class_code).1.due_date = m.due_date
    ∧ (editTaskFields m name due_date priority status class_code).1.sub_tasks = m.sub_tasks := by
  unfold editTaskFields
  rw [hdd]
  cases hn : strTruthy name <;> simp [hn, applyTaskTail_fields]

lemma editSubTaskFields_dates (mainDue : Option PyDate) (st : SubTask)
    (details due_date priority : Option String)
    (h : dateViolation mainDue st.due_date = false) :
    dateViolation mainDue (editSubTaskFields mainDue st details due_date priority).1.due_date
      = false := by
  have hst1 : (if strTruthy details then { st with details := pyStr details } else st).due_date
      = st.due_date := by cases strTruthy details <;> simp
  unfold editSubTaskFields
  cases hdd : strTruthy due_date with
  | false =>
    cases hp : strTruthy priority <;> simp [hp, hst1, h]
  | true =>
    cases hparse : strptimeDMY (pyStr due_date) with
    | none => simp [hparse, hst1, h]
    | some nd =>
      cases hv : dateViolation mainDue (some nd) with
      | true => simp [hparse, hv, hst1, h]
      | false =>
        cases hp : strTruthy priority <;> simp [hparse, hp, hv]

lemma add_sub_task_datesOk (m : MainTask) (sub : SubTask) (h : m.datesOk = true) :
    (m.add_sub_task sub).1.datesOk = true := by
  unfold MainTask.add_sub_task
  cases hv : dateViolation m.due_date sub.due_date with
  | true => simpa using h
  | false =>
    simp only [Bool.false_eq_true, if_false]
    unfold MainTask.datesOk at h ⊢
    dsimp only
    rw [List.all_append]
    simp [h, hv]

lemma delete_sub_task_datesOk (m : MainTask) (k : Int) (h : m.datesOk = true) :
    (m.delete_sub_task k).1.datesOk = true := by
  unfold MainTask.delete_sub_task
  split
  · unfold MainTask.datesOk at h ⊢
    dsimp only
    exact all_eraseIdx_of_all h
  · simpa using h

lemma mark_sub_task_datesOk (m : MainTask) (k : Int) (h : m.datesOk = true) :
    (m.mark_sub_task_as_completed k).1.datesOk = true := by
  unfold MainTask.mark_sub_task_as_completed
  split
  · cases hget : m.sub_tasks.get? (k - 1).toNat with
    | none => simpa using h
    | some st =>
      simp only [hget]
      unfold MainTask.datesOk at h ⊢
      dsimp only
      apply all_set_of_all h
      have := (List.all_eq_true.mp h) st (List.get?_mem hget)
      simpa [SubTask.mark_as_completed] using this
  · simpa using h

lemma edit_sub_task_datesOk (m : MainTask) (k : Int) (d dd p : Option String)
    (h : m.datesOk = true) : (m.edit_sub_task k d dd p).1.datesOk = true := by
  unfold MainTask.edit_sub_task
  split
  · cases hget : m.sub_tasks.get? (k - 1).toNat with
    | none => simpa using h
    | some st =>
      simp only [hget]
      unfold MainTask.datesOk at h ⊢
      dsimp only
      apply all_set_of_all h
      have hst := (List.all_eq_true.mp h) st (List.get?_mem hget)
      rw [Bool.not_eq_true'] at hst ⊢
      exact editSubTaskFields_dates m.due_date st d dd p hst
  · simpa using h

lemma mark_main_datesOk (m : MainTask) (h : m.datesOk = true) :
    m.mark_as_completed.datesOk = true := by
  simpa [MainTask.mark_as_completed, MainTask.datesOk] using h

lemma withTask_datesOk {s : Student} (i : Int) {f : MainTask → MainTask × Option PyError}
    (hf : ∀ m, m.datesOk = true → (f m).1.datesOk = true)
    (hs : s.datesOk = true) : (s.withTask i f).1.datesOk = true := by
  unfold Student.withTask
  split
  · cases hget : s.task_lists.get? (i - 1).toNat with
    | none => simpa using hs
    | some m =>
      simp only [hget]
      unfold Student.datesOk at hs ⊢
      dsimp only
      apply all_set_of_all hs
      exact hf m ((List.all_eq_true.mp hs) m (List.get?_mem hget))
  · simpa using hs

lemma edit_task_list_datesOk {s : Student} (k : Int)
    (name due_date priority status class_code : Option String)
    (hdd : strTruthy due_date = false) (hs : s.datesOk = true) :
    (s.edit_task_list k name due_date priority status class_code).1.datesOk = true := by
  unfold Student.edit_task_list
  split
  · cases hget : s.task_lists.get? (k - 1).toNat with
    | none => simpa using hs
    | some m =>
      simp only [hget]
      unfold Student.datesOk at hs ⊢
      dsimp only
      apply all_set_of_all hs
      have hm := (List.all_eq_true.mp hs) m (List.get?_mem hget)
      obtain ⟨h1, h2⟩ := editTaskFields_no_due m name due_date priority status class_code hdd
      exact datesOk_of_eq h1 h2 hm
  · simpa using hs

lemma add_task_list_datesOk {s : Student} {m : MainTask} (hm : m.sub_tasks = [])
    (hs : s.datesOk = true) : (s.add_task_list m).datesOk = true := by
  unfold Student.datesOk at hs
  unfold Student.add_task_list Student.datesOk
  dsimp only
  rw [List.all_append]
  simp [hs, MainTask.datesOk, hm]

lemma delete_task_list_datesOk {s : Student} (k : Int) (hs : s.datesOk = true) :
    (s.delete_task_list k).1.datesOk = true := by
  unfold Student.delete_task_list
  split
  · unfold Student.datesOk at hs ⊢
    dsimp only
    exact all_eraseIdx_of_all hs
  · simpa using hs

/-- Claim C3, amended: the date-containment invariant holds in every state
reachable from a fresh `Student` by the exposed operations as long as
`edit_task_list` is never given a (truthy) due date; `edit_task_list`
assigns a new main-task due date with no re-validation against the
existing sub-tasks, which is the one operation able to break the invariant
(and a violating `edit_sub_task` call, though it raises, may still have
applied its `details` field). -/
theorem invariant_preserved_without_due_edit (s : Student) (h : Reach false s) :
    s.datesOk = true := by
  induction h with
  | init id pw => rfl
  | add_task_list m hm _ ih => exact add_task_list_datesOk hm ih
  | delete_task_list k _ ih => exact delete_task_list_datesOk k ih
  | edit_task_list k name due_date priority status class_code hdue _ ih =>
    rcases hdue with hdd | hfalse
    · exact edit_task_list_datesOk k name due_date priority status class_code hdd ih
    · exact absurd hfalse (by simp)
  | add_sub_task i sub _ ih =>
    exact withTask_datesOk i (fun m hm => add_sub_task_datesOk m sub hm) ih
  | edit_sub_task i k d dd p _ ih =>
    exact withTask_datesOk i (fun m hm => edit_sub_task_datesOk m k d dd p hm) ih
  | delete_sub_task i k _ ih =>
    exact withTask_datesOk i (fun m hm => delete_sub_task_datesOk m k hm) ih
  | mark_sub_task i k _ ih =>
    exact withTask_datesOk i (fun m hm => mark_sub_task_datesOk m k hm) ih
  | mark_main_task i _ ih =>
    exact withTask_datesOk i (fun m hm => mark_main_datesOk m hm) ih

/-- Witness for `invariant_preserved_without_due_edit`: the spec's scenario
state (Essay task with its draft sub-task) is reachable and satisfies the
invariant. -/
theorem invariant_preserved_without_due_edit_witness :
    Student.datesOk (((Student.mk "s1" "pw" []).add_task_list essayTask).withTask 1
      (fun m => m.add_sub_task draftIntro)).1 = true :=
  invariant_preserved_without_due_edit _
    (Reach.add_sub_task 1 draftIntro
      (Reach.add_task_list essayTask rfl (Reach.init "s1" "pw")))

/-- Claim C3 fails on the code as stated: from an empty student, add the
Essay task (due 01/06/2025), add its draft sub-task (due 15/05/2025), then
`edit_task_list` the task's due date to 01/01/2025 — the edit succeeds
without re-validating the sub-tasks, reaching a state where the sub-task's
due date is strictly later than its owner's, so the invariant does not
hold in every reachable state. -/
theorem invariant_reachable_violation :
    ¬ (∀ s : Student, Reach true s → Student.datesOk s = true) := by
  intro hall
  have hreach : Reach true ((((Student.mk "s1" "pw" []).add_task_list essayTask).withTask 1
      (fun m => m.add_sub_task draftIntro)).1.edit_task_list 1
        none (some "01/01/2025") none none none).1 :=
    Reach.edit_task_list 1 none (some "01/01/2025") none none none (Or.inr rfl)
      (Reach.add_sub_task 1 draftIntro
        (Reach.add_task_list essayTask rfl (Reach.init "s1" "pw")))
  have hbad := hall _ hreach
  revert hbad
  decide
